import Mathlib

/-!
Verification of the structural layout linter in `source_layout.py`.

The embedding models the core pipeline: the `DeclType` rank enumeration, the
`DeclNode` declaration tree with its recursive `check_order` walk, and the
`Analyzer` classification of parsed statements (`_analyze_module`,
`_analyze_class`, `_analyze_class_var`, `_analyze_function`,
`_analyze_import`, `_analyze_file`).  Python `ast` statements are embedded as
the inductive `Stmt`, carrying exactly the fields the analyzer inspects.
Python's `str.startswith` / `str.endswith` are modelled on character lists.
-/

/-- One reported violation, mirroring class `Issue` (line, msg). -/
structure Issue where
  line : Nat
  msg : String
deriving DecidableEq, Repr

/-- The closed rank enumeration `DeclType`. -/
inductive DeclType where
  | ROOT
  | IMPORT
  | CLASS_DECL
  | CLASS_VAR
  | MAGIC_METHOD
  | STATIC_METHOD
  | GETTER_SETTER
  | PUBLIC_METHOD
  | PRIVATE_METHOD
deriving DecidableEq, Repr

/-- The integer rank of each `DeclType` member (its `.value` in the source). -/
def DeclType.value : DeclType → Nat
  | .ROOT => 0
  | .IMPORT => 1
  | .CLASS_DECL => 2
  | .CLASS_VAR => 3
  | .MAGIC_METHOD => 4
  | .STATIC_METHOD => 5
  | .GETTER_SETTER => 6
  | .PUBLIC_METHOD => 7
  | .PRIVATE_METHOD => 8

/-- The declaration tree node `DeclNode`: decl_type, name, line, children. -/
inductive DeclNode where
  | mk (decl_type : DeclType) (name : String) (line : Nat)
      (children : List DeclNode)

def DeclNode.decl_type : DeclNode → DeclType
  | .mk t _ _ _ => t

def DeclNode.name : DeclNode → String
  | .mk _ n _ _ => n

def DeclNode.line : DeclNode → Nat
  | .mk _ _ l _ => l

def DeclNode.children : DeclNode → List DeclNode
  | .mk _ _ _ cs => cs

/-- The message built at source line 62:
`'"{child.name}" should not be after "{prev.name}"'`. -/
def mk_msg (child_name prev_name : String) : String :=
  "\"" ++ child_name ++ "\" should not be after \"" ++ prev_name ++ "\""

/-- The sibling-scan loop of `DeclNode.check_order` (source lines 53-65):
walks the children with a `prev` cursor that starts as `None` and always
advances to the child just visited, emitting an issue whenever the current
child's rank drops below the previous sibling's rank. -/
def sibling_scan : Option DeclNode → List DeclNode → List Issue
  | _, [] => []
  | none, child :: rest => sibling_scan (some child) rest
  | some prev, child :: rest =>
      (if child.decl_type.value < prev.decl_type.value then
        [Issue.mk child.line (mk_msg child.name prev.name)]
      else []) ++ sibling_scan (some child) rest

mutual

/-- `DeclNode.check_order` (source lines 52-70): the local sibling scan,
followed by the recursively collected issues of every child in order. -/
def DeclNode.check_order : DeclNode → List Issue
  | .mk _ _ _ cs => sibling_scan none cs ++ check_children cs

/-- The second loop of `check_order` (source lines 66-68): extend the issue
list with each child's recursive `check_order` result, in child order. -/
def check_children : List DeclNode → List Issue
  | [] => []
  | c :: cs => DeclNode.check_order c ++ check_children cs

end

/-- Python `str.startswith`, modelled on the character list. -/
def py_startswith (s p : String) : Bool :=
  p.data.isPrefixOf s.data

/-- Python `str.endswith`, modelled on the character list. -/
def py_endswith (s p : String) : Bool :=
  p.data.isSuffixOf s.data

/-- A decorator expression, as far as `_analyze_function` discriminates it:
a bare identifier (`ast.Name`), an attribute access (`ast.Attribute`, only
its trailing attribute name is inspected), or anything else. -/
inductive Deco where
  | name (id : String)
  | attr (a : String)
  | other
deriving DecidableEq, Repr

/-- An assignment target, as far as `_analyze_class_var` discriminates it. -/
inductive Target where
  | name (id : String)
  | attr (a : String)
  | other
deriving DecidableEq, Repr

/-- A Python statement, carrying the fields the analyzer reads: kind
discriminant, 1-based line, and kind-specific data.  `importStmt` is
`ast.Import` (with its alias names); `importFrom` is `ast.ImportFrom`;
`other` stands for every statement kind the analyzer does not handle. -/
inductive Stmt where
  | classDef (name : String) (lineno : Nat) (body : List Stmt)
  | functionDef (name : String) (lineno : Nat) (decorator_list : List Deco)
  | importStmt (names : List String) (lineno : Nat)
  | importFrom (module : String) (names : List String) (lineno : Nat)
  | assign (targets : List Target) (lineno : Nat)
  | annAssign (target : Target) (lineno : Nat)
  | other (lineno : Nat)

/-- `Analyzer._analyze_import` (source lines 104-108): an `IMPORT` node whose
name joins the alias names with commas. -/
def analyze_import (names : List String) (lineno : Nat) : DeclNode :=
  DeclNode.mk DeclType.IMPORT (String.intercalate "," names) lineno []

/-- The name-based fallthrough of `_analyze_function` (source lines 159-164):
dunder name, then leading underscore, then public. -/
def classify_by_name (name : String) (lineno : Nat) : DeclNode :=
  if py_startswith name "__" && py_endswith name "__" then
    DeclNode.mk DeclType.MAGIC_METHOD name lineno []
  else if py_startswith name "_" then
    DeclNode.mk DeclType.PRIVATE_METHOD name lineno []
  else
    DeclNode.mk DeclType.PUBLIC_METHOD name lineno []

/-- `Analyzer._analyze_function` (source lines 147-164): inspect only the
first decorator; `@staticmethod` marks a static method, `@property` or any
`@x.setter` a getter/setter; otherwise classify by the function name. -/
def analyze_function (name : String) (lineno : Nat)
    (decorator_list : List Deco) : DeclNode :=
  match decorator_list.head? with
  | some (Deco.name id) =>
      if id = "staticmethod" then DeclNode.mk DeclType.STATIC_METHOD name lineno []
      else if id = "property" then DeclNode.mk DeclType.GETTER_SETTER name lineno []
      else classify_by_name name lineno
  | some (Deco.attr a) =>
      if a = "setter" then DeclNode.mk DeclType.GETTER_SETTER name lineno []
      else classify_by_name name lineno
  | some Deco.other => classify_by_name name lineno
  | none => classify_by_name name lineno

/-- `Analyzer._analyze_class_var` (source lines 127-145): a `CLASS_VAR` node
named after the (first) target when it is an identifier or attribute access,
`"unknown"` otherwise; `None` (here `none`) on any non-assignment statement,
mirroring the function falling off its end. -/
def analyze_class_var : Stmt → Option DeclNode
  | Stmt.annAssign target lineno =>
      match target with
      | Target.name id => some (DeclNode.mk DeclType.CLASS_VAR id lineno [])
      | Target.attr a => some (DeclNode.mk DeclType.CLASS_VAR a lineno [])
      | Target.other => some (DeclNode.mk DeclType.CLASS_VAR "unknown" lineno [])
  | Stmt.assign targets lineno =>
      match targets with
      | [] => some (DeclNode.mk DeclType.CLASS_VAR "unknown" lineno [])
      | Target.name id :: _ => some (DeclNode.mk DeclType.CLASS_VAR id lineno [])
      | Target.attr a :: _ => some (DeclNode.mk DeclType.CLASS_VAR a lineno [])
      | Target.other :: _ => some (DeclNode.mk DeclType.CLASS_VAR "unknown" lineno [])
  | _ => none

/-- The body loop of `Analyzer._analyze_class` (source lines 112-123):
assignments and annotated assignments become class vars, function definitions
are classified, everything else (nested classes included) is skipped. -/
def analyze_class_children : List Stmt → List DeclNode
  | [] => []
  | Stmt.assign targets lineno :: rest =>
      (analyze_class_var (Stmt.assign targets lineno)).toList
        ++ analyze_class_children rest
  | Stmt.functionDef n l ds :: rest =>
      analyze_function n l ds :: analyze_class_children rest
  | Stmt.annAssign target lineno :: rest =>
      (analyze_class_var (Stmt.annAssign target lineno)).toList
        ++ analyze_class_children rest
  | Stmt.classDef _ _ _ :: rest => analyze_class_children rest
  | Stmt.importStmt _ _ :: rest => analyze_class_children rest
  | Stmt.importFrom _ _ _ :: rest => analyze_class_children rest
  | Stmt.other _ :: rest => analyze_class_children rest

/-- `Analyzer._analyze_class` (source lines 110-125): a `CLASS_DECL` node
whose children come from the class-body loop. -/
def analyze_class (name : String) (lineno : Nat) (body : List Stmt) : DeclNode :=
  DeclNode.mk DeclType.CLASS_DECL name lineno (analyze_class_children body)

/-- The body loop of `Analyzer._analyze_module` (source lines 92-101):
class definitions, function definitions and plain imports become children of
the root; everything else is skipped. -/
def analyze_module_children : List Stmt → List DeclNode
  | [] => []
  | Stmt.classDef n l body :: rest =>
      analyze_class n l body :: analyze_module_children rest
  | Stmt.functionDef n l ds :: rest =>
      analyze_function n l ds :: analyze_module_children rest
  | Stmt.importStmt names l :: rest =>
      analyze_import names l :: analyze_module_children rest
  | Stmt.importFrom _ _ _ :: rest => analyze_module_children rest
  | Stmt.assign _ _ :: rest => analyze_module_children rest
  | Stmt.annAssign _ _ :: rest => analyze_module_children rest
  | Stmt.other _ :: rest => analyze_module_children rest

/-- `Analyzer._analyze_module` (source lines 90-102): the synthetic root. -/
def analyze_module (body : List Stmt) : DeclNode :=
  DeclNode.mk DeclType.ROOT "root" 0 (analyze_module_children body)

/-- `Analyzer._analyze_file` (source lines 166-178), with parsing delegated
to the external parser: `none` models `ast.parse` raising (the except branch
returns `[]`), `some body` models a successful parse of the module body. -/
def analyze_file (parsed : Option (List Stmt)) : List Issue :=
  match parsed with
  | none => []
  | some body => (analyze_module body).check_order

/-- The adjacent-pair formulation of the sibling scan used by the spec: run
over the pairs `(prev, c)` of consecutive children and keep an issue exactly
when the rank strictly drops. -/
def adjacent_issues (cs : List DeclNode) : List Issue :=
  (cs.zip cs.tail).filterMap (fun pc =>
    if pc.2.decl_type.value < pc.1.decl_type.value then
      some (Issue.mk pc.2.line (mk_msg pc.2.name pc.1.name))
    else none)

/-- The spec's name-based fallback for functions, written from its words:
dunder marker on both ends gives magic, a leading underscore gives private,
anything else public. -/
def spec_name_fallback (nm : String) (l : Nat) : DeclNode :=
  if py_startswith nm "__" && py_endswith nm "__" then
    DeclNode.mk DeclType.MAGIC_METHOD nm l []
  else if py_startswith nm "_" then
    DeclNode.mk DeclType.PRIVATE_METHOD nm l []
  else
    DeclNode.mk DeclType.PUBLIC_METHOD nm l []

/-- The spec's function-classification policy, written from its words: look
only at the head of the decorator list; a bare `staticmethod` is static, a
bare `property` or an attribute access ending in `setter` is a
getter/setter, and in every other case the name decides. -/
def classify_function_spec (nm : String) (l : Nat) (ds : List Deco) : DeclNode :=
  match ds.head? with
  | some (Deco.name id) =>
      if id = "staticmethod" then DeclNode.mk DeclType.STATIC_METHOD nm l []
      else if id = "property" then DeclNode.mk DeclType.GETTER_SETTER nm l []
      else spec_name_fallback nm l
  | some (Deco.attr a) =>
      if a = "setter" then DeclNode.mk DeclType.GETTER_SETTER nm l []
      else spec_name_fallback nm l
  | _ => spec_name_fallback nm l

/-- The spec's name resolution for an assignment target: identifier, trailing
attribute name, or the `"unknown"` placeholder. -/
def target_display_name : Target → String
  | Target.name id => id
  | Target.attr a => a
  | Target.other => "unknown"

/-- The class body of `examples/example.py` (class `Dog`): a static method
`from_dict` (line 3), a field `name` (line 6), `__init__` (line 8), a public
method `bark` (line 12), `__repr__` (line 15), a field `age` (line 18). -/
def dog_body : List Stmt :=
  [Stmt.functionDef "from_dict" 3 [Deco.name "staticmethod"],
   Stmt.annAssign (Target.name "name") 6,
   Stmt.functionDef "__init__" 8 [],
   Stmt.functionDef "bark" 12 [],
   Stmt.functionDef "__repr__" 15 [],
   Stmt.annAssign (Target.name "age") 18]

/-- The module of `examples/example.py`: its only top-level statement is the
class `Dog` on line 1. -/
def dog_module : List Stmt :=
  [Stmt.classDef "Dog" 1 dog_body]

/-! ## Helper lemmas -/

theorem sibling_scan_some (cs : List DeclNode) :
    ∀ p, sibling_scan (some p) cs = adjacent_issues (p :: cs) := by
  induction cs with
  | nil => intro p; rfl
  | cons c rest ih =>
      intro p
      show (if c.decl_type.value < p.decl_type.value then
              [Issue.mk c.line (mk_msg c.name p.name)]
            else []) ++ sibling_scan (some c) rest = _
      rw [ih c]
      simp only [adjacent_issues, List.tail_cons, List.zip_cons_cons,
        List.filterMap_cons]
      by_cases h : c.decl_type.value < p.decl_type.value
      · simp [h]
      · simp [h]

theorem check_children_eq_join (cs : List DeclNode) :
    check_children cs = (cs.map DeclNode.check_order).flatten := by
  induction cs with
  | nil => rfl
  | cons c rest ih => simp [check_children, ih]

theorem classify_by_name_leaf (nm : String) (l : Nat) :
    (classify_by_name nm l).children = [] := by
  unfold classify_by_name
  split
  · rfl
  · split <;> rfl

theorem analyze_function_leaf (nm : String) (l : Nat) (ds : List Deco) :
    (analyze_function nm l ds).children = [] := by
  rcases ds with _ | ⟨d, rest⟩
  · exact classify_by_name_leaf nm l
  · rcases d with id | a | _
    · by_cases h1 : id = "staticmethod"
      · simp [analyze_function, h1, DeclNode.children]
      · by_cases h2 : id = "property"
        · simp [analyze_function, h1, h2, DeclNode.children]
        · simp [analyze_function, h1, h2, classify_by_name_leaf]
    · by_cases h1 : a = "setter"
      · simp [analyze_function, h1, DeclNode.children]
      · simp [analyze_function, h1, classify_by_name_leaf]
    · exact classify_by_name_leaf nm l

theorem analyze_class_var_leaf (s : Stmt) (n : DeclNode)
    (h : analyze_class_var s = some n) : n.children = [] := by
  cases s with
  | annAssign t l =>
      cases t <;> (simp [analyze_class_var] at h; subst h; rfl)
  | assign ts l =>
      rcases ts with _ | ⟨t0, ts'⟩
      · simp [analyze_class_var] at h; subst h; rfl
      · cases t0 <;> (simp [analyze_class_var] at h; subst h; rfl)
  | classDef nm l body => simp [analyze_class_var] at h
  | functionDef nm l ds => simp [analyze_class_var] at h
  | importStmt ns l => simp [analyze_class_var] at h
  | importFrom m ns l => simp [analyze_class_var] at h
  | other l => simp [analyze_class_var] at h

theorem analyze_class_children_leaf (body : List Stmt) :
    ∀ g ∈ analyze_class_children body, g.children = [] := by
  induction body with
  | nil => intro g hg; simp [analyze_class_children] at hg
  | cons s rest ih =>
      intro g hg
      cases s with
      | assign ts l =>
          rw [analyze_class_children] at hg
          rcases List.mem_append.mp hg with h | h
          · exact analyze_class_var_leaf _ g (Option.mem_toList.mp h)
          · exact ih g h
      | annAssign t l =>
          rw [analyze_class_children] at hg
          rcases List.mem_append.mp hg with h | h
          · exact analyze_class_var_leaf _ g (Option.mem_toList.mp h)
          · exact ih g h
      | functionDef nm l ds =>
          rw [analyze_class_children] at hg
          rcases List.mem_cons.mp hg with h | h
          · subst h; exact analyze_function_leaf nm l ds
          · exact ih g h
      | classDef nm l b => exact ih g (by rw [analyze_class_children] at hg; exact hg)
      | importStmt ns l => exact ih g (by rw [analyze_class_children] at hg; exact hg)
      | importFrom m ns l => exact ih g (by rw [analyze_class_children] at hg; exact hg)
      | other l => exact ih g (by rw [analyze_class_children] at hg; exact hg)

theorem analyze_module_children_shape (stmts : List Stmt) :
    ∀ c ∈ analyze_module_children stmts,
      (c.decl_type ≠ DeclType.CLASS_DECL → c.children = []) ∧
      ∀ g ∈ c.children, g.children = [] := by
  induction stmts with
  | nil => intro c hc; simp [analyze_module_children] at hc
  | cons s rest ih =>
      intro c hc
      cases s with
      | classDef nm l body =>
          rw [analyze_module_children] at hc
          rcases List.mem_cons.mp hc with h | h
          · subst h
            refine ⟨fun hne => absurd rfl hne, ?_⟩
            exact analyze_class_children_leaf body
          · exact ih c h
      | functionDef nm l ds =>
          rw [analyze_module_children] at hc
          rcases List.mem_cons.mp hc with h | h
          · subst h
            refine ⟨fun _ => analyze_function_leaf nm l ds, ?_⟩
            intro g hg
            rw [analyze_function_leaf nm l ds] at hg
            simp at hg
          · exact ih c h
      | importStmt ns l =>
          rw [analyze_module_children] at hc
          rcases List.mem_cons.mp hc with h | h
          · subst h
            exact ⟨fun _ => rfl, fun g hg => by
              simp [analyze_import, DeclNode.children] at hg⟩
          · exact ih c h
      | importFrom m ns l => rw [analyze_module_children] at hc; exact ih c hc
      | assign ts l => rw [analyze_module_children] at hc; exact ih c hc
      | annAssign t l => rw [analyze_module_children] at hc; exact ih c hc
      | other l => rw [analyze_module_children] at hc; exact ih c hc

theorem py_startswith_two_underscores (s : String)
    (h : py_startswith s "__" = true) : py_startswith s "_" = true := by
  unfold py_startswith at h ⊢
  rw [List.isPrefixOf_iff_prefix] at h ⊢
  have hstep : ("_".data : List Char) <+: "__".data :=
    List.isPrefixOf_iff_prefix.mp (by decide)
  exact hstep.trans h

/-! ## Claim theorems -/

/-- Claim C1: for every `DeclNode`, the sibling scan of the order checker,
taken over the adjacent pairs `(prev, c)` of the node's children left to
right, emits an issue with line `c.line` and message
`"<c.name>" should not be after "<prev.name>"` exactly when
`rank(c) < rank(prev)`; equal or increasing rank emits nothing, and the
baseline always advances to the most recent sibling, as the adjacent-pair
formulation `adjacent_issues` makes explicit. -/
theorem sibling_scan_adjacent_pairs (n : DeclNode) :
    sibling_scan none n.children = adjacent_issues n.children := by
  cases n with
  | mk t nm l cs =>
      show sibling_scan none cs = adjacent_issues cs
      cases cs with
      | nil => rfl
      | cons c rest =>
          show sibling_scan (some c) rest = _
          exact sibling_scan_some rest c

/-- Claim C2: for every `DeclNode`, `check_order` returns the node's own
sibling-scan violations first, followed by each child's whole recursive issue
block in sibling order, regardless of line numbers. -/
theorem check_order_own_before_descendants (n : DeclNode) :
    DeclNode.check_order n
      = sibling_scan none n.children
          ++ (n.children.map DeclNode.check_order).flatten := by
  cases n with
  | mk t nm l cs =>
      show sibling_scan none cs ++ check_children cs = _
      rw [check_children_eq_join]
      rfl

/-- Claim C3: the example module whose only top-level statement is class
`Dog` (static method `from_dict`, field `name`, `__init__`, public method
`bark`, `__repr__`, field `age`, in that order) produces exactly three
issues: `name` against `from_dict`, `__repr__` against `bark`, and `age`
against `__repr__`, with no module-level issues. -/
theorem dog_module_three_issues :
    analyze_file (some dog_module)
      = [Issue.mk 6 "\"name\" should not be after \"from_dict\"",
         Issue.mk 15 "\"__repr__\" should not be after \"bark\"",
         Issue.mk 18 "\"age\" should not be after \"__repr__\""] := rfl

/-- Claim C4: function classification looks only at the first decorator --
bare `staticmethod` gives STATIC_METHOD, bare `property` or an attribute
access named `setter` gives GETTER_SETTER -- and otherwise (further
decorators ignored) falls back to the name: dunder on both ends is magic, a
leading underscore is private, anything else is public; this is the policy
`classify_function_spec` written from the spec, and swapping the decorators
after the first never changes the result. -/
theorem analyze_function_first_decorator_policy (nm : String) (l : Nat)
    (ds : List Deco) :
    analyze_function nm l ds = classify_function_spec nm l ds ∧
    ∀ (d : Deco) (rest1 rest2 : List Deco),
      analyze_function nm l (d :: rest1) = analyze_function nm l (d :: rest2) := by
  constructor
  · rcases ds with _ | ⟨d, rest⟩
    · rfl
    · rcases d with id | a | _ <;> rfl
  · intro d rest1 rest2
    rcases d with id | a | _ <;> rfl

/-- Claim C5 counterexample: a class definition nested inside another class
body is silently dropped by `_analyze_class` -- the enclosing `CLASS_DECL`
node gets no child at all for it, contrary to the claim that class
definitions are classified recursively in either scope. -/
theorem nested_class_silently_dropped :
    (analyze_class "Outer" 1 [Stmt.classDef "Inner" 2 []]).children = [] ∧
    DeclNode.mk DeclType.CLASS_DECL "Inner" 2 []
      ∉ (analyze_class "Outer" 1 [Stmt.classDef "Inner" 2 []]).children := by
  refine ⟨rfl, ?_⟩
  intro h
  simp [analyze_class, analyze_class_children, DeclNode.children] at h

/-- Claim C5 amended: a class definition statement at module scope produces a
`CLASS_DECL` node whose children come from classifying its body under
class-body scope, while a class definition statement inside a class body is
silently skipped and contributes no child. -/
theorem class_decl_module_scope_only (nm nm2 : String) (l l2 : Nat)
    (body body2 rest : List Stmt) :
    (analyze_module (Stmt.classDef nm l body :: rest)).children
      = analyze_class nm l body :: (analyze_module rest).children ∧
    analyze_class nm l body
      = DeclNode.mk DeclType.CLASS_DECL nm l (analyze_class_children body) ∧
    analyze_class_children (Stmt.classDef nm2 l2 body2 :: body)
      = analyze_class_children body :=
  ⟨rfl, rfl, rfl⟩

/-- Claim C6: every assignment or annotated assignment in class-body scope
classifies as a `CLASS_VAR` node (never raising): the name is the identifier
of a simple-identifier target, the trailing attribute of an attribute-access
target, and `"unknown"` for a zero-target plain assignment or any other
target shape. -/
theorem class_var_never_raises (t : Target) (ts : List Target) (l : Nat) :
    analyze_class_var (Stmt.annAssign t l)
      = some (DeclNode.mk DeclType.CLASS_VAR (target_display_name t) l []) ∧
    analyze_class_var (Stmt.assign ts l)
      = some (DeclNode.mk DeclType.CLASS_VAR
          (match ts with
           | [] => "unknown"
           | t0 :: _ => target_display_name t0) l []) := by
  constructor
  · cases t <;> rfl
  · rcases ts with _ | ⟨t0, ts'⟩
    · rfl
    · cases t0 <;> rfl

/-- Claim C7: a file the external parser cannot parse yields an empty issue
list (the `except` branch of `_analyze_file`), indistinguishable by the
issue list alone from a clean file such as the empty module. -/
theorem unparsable_file_empty_issues :
    analyze_file none = [] ∧ analyze_file none = analyze_file (some []) :=
  ⟨rfl, rfl⟩

/-- Claim C8: every tree the builder produces has exactly two meaningful
populated levels: the synthetic ROOT (rank-0 type, line 0) holds the
module-level declarations, only `CLASS_DECL` children of ROOT may have
children of their own, and the members of a class body are always leaves --
the builder never descends into function bodies. -/
theorem decl_tree_two_levels (stmts : List Stmt) :
    (analyze_module stmts).decl_type = DeclType.ROOT ∧
    (analyze_module stmts).line = 0 ∧
    ∀ c ∈ (analyze_module stmts).children,
      (c.decl_type ≠ DeclType.CLASS_DECL → c.children = []) ∧
      ∀ g ∈ c.children, g.children = [] :=
  ⟨rfl, rfl, analyze_module_children_shape stmts⟩

/-- The two-level invariant applied to a one-function module: the public
method appears as a child of ROOT and is a leaf. -/
theorem decl_tree_two_levels_witness :
    (DeclNode.mk DeclType.PUBLIC_METHOD "f" 2 []).children = [] :=
  ((decl_tree_two_levels [Stmt.functionDef "f" 2 []]).2.2
      (DeclNode.mk DeclType.PUBLIC_METHOD "f" 2 [])
      (by exact List.Mem.head _)).1
    (by decide)

/-- Claim C9: a plain `import` statement becomes an `IMPORT` node named by
the comma-joined imported names, while a `from X import Y` statement at
module level is silently dropped, contributing no node and no issue. -/
theorem import_statements_only (ns : List String) (m : String) (l : Nat)
    (rest : List Stmt) :
    analyze_module (Stmt.importStmt ns l :: rest)
      = DeclNode.mk DeclType.ROOT "root" 0
          (DeclNode.mk DeclType.IMPORT (String.intercalate "," ns) l []
            :: (analyze_module rest).children) ∧
    analyze_module (Stmt.importFrom m ns l :: rest) = analyze_module rest :=
  ⟨rfl, rfl⟩

/-- Claim C10: an undecorated function whose name starts with a double
underscore but does not end with one classifies as `PRIVATE_METHOD`: the
magic test fails on the suffix, and the private test only needs a single
leading underscore, implied by the double one. -/
theorem double_underscore_private (nm : String) (l : Nat)
    (h1 : py_startswith nm "__" = true) (h2 : py_endswith nm "__" = false) :
    analyze_function nm l [] = DeclNode.mk DeclType.PRIVATE_METHOD nm l [] := by
  have hp := py_startswith_two_underscores nm h1
  show classify_by_name nm l = _
  simp [classify_by_name, h1, h2, hp]

/-- The mangled-name classification applied to the concrete name
`__mangled`. -/
theorem double_underscore_private_witness :
    py_startswith "__mangled" "__" = true ∧
    py_endswith "__mangled" "__" = false ∧
    analyze_function "__mangled" 7 []
      = DeclNode.mk DeclType.PRIVATE_METHOD "__mangled" 7 [] :=
  ⟨by decide, by decide, double_underscore_private "__mangled" 7 (by decide) (by decide)⟩
